import Mathlib

/-!
Shallow embedding of the idollyApp client-side HTTP request layer.

The repository contains two designs for the same problem:
* a plain axios wrapper (`API` class: `getUrl`, `addGlobalConfig`,
  `responseHandler`, `plainRequestTransformer`, `plainResponseTransformer`,
  `post`/`patch`/`postTransformed`/...), and
* a schema-validated wrapper (`createSchemaValidator`, `getRequest`,
  `postRequest`, `putRequest`, `patchRequest`, `deleteRequest`).

JavaScript values flowing through the layer are modelled by `JsVal`;
strings are Lean `String`s; JS objects used as header maps are association
lists with right-biased update (`setHeader`), matching object-spread
semantics.  Fallible code returns `Except`.
-/

set_option autoImplicit false

namespace Idolly

/-- A JSON/JavaScript data value (numbers restricted to integers; the
request layer never computes with numeric payloads). -/
inductive JsVal where
  | null
  | bool (b : Bool)
  | num (n : Int)
  | str (s : String)
  | arr (elems : List JsVal)
  | obj (fields : List (String × JsVal))

/-- A single schema-validation issue: a path into the datum and a message. -/
structure Issue where
  path : List String
  message : String
  deriving DecidableEq

/-- The layer's disjoint error kinds: protocol errors thrown by the envelope
unwrapper (`throw \x7bcode, message\x7d` in the source) and validation
errors thrown by the schema validator (`throw new ZodError(issues)`). -/
inductive ApiError where
  | protocol (code : Option Int) (message : Option String)
  | validation (issues : List Issue)
  deriving DecidableEq

/-- Scan a JSON string body up to the closing quote, returning the content
and the remainder.  Escape sequences are outside the model. -/
def strBody : List Char → Option (List Char × List Char)
  | [] => none
  | '"' :: rest => some ([], rest)
  | c :: rest => (strBody rest).map (fun p => (c :: p.1, p.2))

/-- Decimal value of a digit list. -/
def digitsVal (cs : List Char) : Nat :=
  cs.foldl (fun a c => a * 10 + (c.toNat - 48)) 0

/-- `true` when the list is a non-empty run of decimal digits. -/
def allDigits (cs : List Char) : Bool :=
  !cs.isEmpty && cs.all (·.isDigit)

/-- Modelled from the spec: standard structured-text parsing (`JSON.parse`),
restricted to scalar payloads (strings, integers, booleans, null); composite
payloads are outside the model.  A malformed payload is a parse error, which
`JSON.parse` signals by throwing. -/
def jsonParse (s : String) : Except String JsVal :=
  match s.data with
  | [] => .error "Unexpected end of JSON input"
  | '"' :: rest =>
    match strBody rest with
    | some (b, []) => .ok (.str ⟨b⟩)
    | _ => .error "Unexpected token in JSON"
  | cs =>
    if cs = "true".data then .ok (.bool true)
    else if cs = "false".data then .ok (.bool false)
    else if cs = "null".data then .ok .null
    else
      match cs with
      | '-' :: ds =>
        if allDigits ds then .ok (.num (-(digitsVal ds : Int)))
        else .error "Unexpected token in JSON"
      | ds =>
        if allDigits ds then .ok (.num (digitsVal ds))
        else .error "Unexpected token in JSON"

/-- `plainResponseTransformer` (src/unnamed/part_000 lines 18-20):
`typeof data === "string" ? JSON.parse(data) : data`. -/
def plainResponseTransformer (data : JsVal) : Except String JsVal :=
  match data with
  | .str s => jsonParse s
  | d => .ok d

/-! ## Header maps (JS objects of strings) -/

/-- A JS string-keyed header object, as an association list without
duplicate keys in the cases the layer constructs. -/
abbrev HeaderMap := List (String × String)

/-- JS object update `\x7b...h, k: v\x7d`: replaces the value at an existing
key in place, otherwise appends the new entry (JS insertion order; a JS
object never holds a duplicate key). -/
def setHeader (h : HeaderMap) (k v : String) : HeaderMap :=
  match h with
  | [] => [(k, v)]
  | (k', v') :: rest => if k' = k then (k, v) :: rest else (k', v') :: setHeader rest k v

/-- Reading a key from a header object. -/
def getHeader (h : HeaderMap) (k : String) : Option String :=
  match h with
  | [] => none
  | (k', v) :: rest => if k' = k then some v else getHeader rest k

theorem getHeader_setHeader_self (h : HeaderMap) (k v : String) :
    getHeader (setHeader h k v) k = some v := by
  induction h with
  | nil => simp [setHeader, getHeader]
  | cons p rest ih =>
    obtain ⟨k', v'⟩ := p
    by_cases hp : k' = k
    · simp [setHeader, getHeader, hp]
    · simp [setHeader, getHeader, hp, ih]

theorem getHeader_setHeader_ne (h : HeaderMap) (k v k' : String) (hne : k' ≠ k) :
    getHeader (setHeader h k v) k' = getHeader h k' := by
  induction h with
  | nil => simp [setHeader, getHeader, Ne.symm hne]
  | cons p rest ih =>
    obtain ⟨a, b⟩ := p
    by_cases hp : a = k
    · simp [setHeader, getHeader, hp, Ne.symm hne]
    · by_cases hk : a = k'
      · simp [setHeader, getHeader, hp, hk, hne]
      · simp [setHeader, getHeader, hp, hk, hne, ih]

/-! ## Serialization and the default transforms -/

mutual

/-- Modelled from the spec: standard structured-text serialization
(`JSON.stringify`), used only as the default request transform. -/
def jsonStringify : JsVal → String
  | .null => "null"
  | .bool true => "true"
  | .bool false => "false"
  | .num n => toString n
  | .str s => "\"" ++ s ++ "\""
  | .arr xs => "[" ++ jsonStringifyList xs ++ "]"
  | .obj fs => "\x7b" ++ jsonStringifyFields fs ++ "\x7d"

/-- Comma-separated serialization of array elements. -/
def jsonStringifyList : List JsVal → String
  | [] => ""
  | [x] => jsonStringify x
  | x :: y :: xs => jsonStringify x ++ "," ++ jsonStringifyList (y :: xs)

/-- Comma-separated serialization of object fields. -/
def jsonStringifyFields : List (String × JsVal) → String
  | [] => ""
  | [(k, x)] => "\"" ++ k ++ "\":" ++ jsonStringify x
  | (k, x) :: y :: fs =>
    "\"" ++ k ++ "\":" ++ jsonStringify x ++ "," ++ jsonStringifyFields (y :: fs)

end

/-- A request transform `(data, headers) => wire`: it may mutate the header
object and returns the wire payload (src passes `headers` by reference; we
return the updated map). -/
abbrev TransformReq := JsVal → HeaderMap → HeaderMap × JsVal

/-- A response transform `data => data`, fallible like `JSON.parse`. -/
abbrev TransformRes := JsVal → Except String JsVal

/-- `plainRequestTransformer` (src/unnamed/part_000 lines 13-16): sets
`Content-Type: application/json` on the headers and returns
`JSON.stringify(data)`. -/
def plainRequestTransformer : TransformReq := fun data headers =>
  (setHeader headers "Content-Type" "application/json", .str (jsonStringify data))

/-! ## Envelope unwrapping (`responseHandler`) -/

/-- `ApiResponse` (src/unnamed/part_000 lines 217-222), as read by
`responseHandler`: `code` may be absent at runtime (the handler checks
`res.code !== undefined`), `data`/`message`/`timestamp` are optional. -/
structure ApiResponse where
  code : Option Int
  data : Option JsVal
  message : Option String
  timestamp : Option String

/-- JS `res.data ?? true`: the boolean `true` when `data` is nullish
(absent, `undefined` or `null`), else the data value. -/
def dataOrTrue (data : Option JsVal) : JsVal :=
  match data with
  | none => .bool true
  | some .null => .bool true
  | some v => v

/-- `responseHandler` (src/unnamed/part_000 lines 3-11).  The first
component is the `console.error` log produced by the call (code, message);
the second is the outcome: `throw \x7bcode, message\x7d` becomes
`Except.error (.protocol code message)`. -/
def responseHandler (res : ApiResponse) :
    List (Int × Option String) × Except ApiError JsVal :=
  if res.code = some 500 then
    ([(500, res.message)], .error (.protocol (some 500) res.message))
  else if res.code ≠ none ∧ res.code ≠ some 200 then
    ([], .error (.protocol res.code res.message))
  else
    ([], .ok (dataOrTrue res.data))

/-! ## Configuration (plain design) -/

/-- `ApiConfig` (src/unnamed/part_000 lines 27-41).  The three hook
callbacks are omitted: no claim concerns the interceptor hooks and they do
not flow into `getUrl`/`addGlobalConfig`. -/
structure ApiConfig where
  rootPath : String
  additionalHeader : Option HeaderMap
  transformRequest : Option (List TransformReq)
  transformResponse : Option (List TransformRes)

/-- The fields a per-call `config : any` may carry that the layer reads or
forwards (`config?.headers`, spread keys `transformRequest`,
`transformResponse`, `withCredentials`). -/
structure CallConfig where
  headers : HeaderMap
  transformRequest : Option (List TransformReq)
  transformResponse : Option (List TransformRes)
  withCredentials : Option Bool

/-- The request configuration handed to the transport after resolution. -/
structure ResolvedConfig where
  headers : HeaderMap
  transformRequest : Option (List TransformReq)
  transformResponse : Option (List TransformRes)
  withCredentials : Bool

/-- `API.getUrl` (src/unnamed/part_000 lines 90-95):
`rootPath + (apiPath.charAt(0) === "/" ? apiPath : "/" + apiPath)`. -/
def getUrl (rootPath apiPath : String) : String :=
  rootPath ++ (if apiPath.data.head? = some '/' then apiPath else "/" ++ apiPath)

/-- `API.addGlobalConfig` (src/unnamed/part_000 lines 97-118), field by
field.  `transformers` contributes a transform list only when the global
one is present and non-empty; `...config` overrides it when the call
carries its own; the computed `headers` object and `withCredentials: true`
are written last and win over `...config`. -/
def addGlobalConfig (g : ApiConfig) (config : Option CallConfig) : ResolvedConfig :=
  { transformRequest :=
      (config.bind (fun c => c.transformRequest)).orElse fun _ =>
        match g.transformRequest with
        | some l => if l.length > 0 then some l else none
        | none => none
    transformResponse :=
      (config.bind (fun c => c.transformResponse)).orElse fun _ =>
        match g.transformResponse with
        | some l => if l.length > 0 then some l else none
        | none => none
    headers :=
      setHeader (match config with | some c => c.headers | none => [])
        "X-ENCRYPTED"
        (match g.transformRequest with
         | some l => if l.length > 0 then "yes" else "no"
         | none => "no")
    withCredentials := true }

/-- The request configuration `API.postTransformed` builds
(src/unnamed/part_000 lines 163-176): caller headers with
`X-ENCRYPTED: "yes"`, singleton transform lists defaulting to the plain
transformers, and `withCredentials: true`. -/
def postTransformedConfig (config : Option CallConfig)
    (transformRequest : Option TransformReq)
    (transformResponse : Option TransformRes) : ResolvedConfig :=
  { headers :=
      setHeader (match config with | some c => c.headers | none => [])
        "X-ENCRYPTED" "yes"
    transformRequest := some [transformRequest.getD plainRequestTransformer]
    transformResponse := some [transformResponse.getD plainResponseTransformer]
    withCredentials := true }

/-! ## Plain-design calls as transport request descriptors -/

/-- The observable request a plain-design wrapper hands to the transport:
the axios method invoked, the resolved URL, the body and the resolved
configuration. -/
structure PlainCall where
  method : String
  url : String
  data : Option JsVal
  config : ResolvedConfig

/-- `API.post` (src/unnamed/part_000 lines 131-142) up to the transport:
`axiosInstance.post(getUrl(apiPath), data, addGlobalConfig(config))`. -/
def post (g : ApiConfig) (apiPath : String) (data : Option JsVal)
    (config : Option CallConfig) : PlainCall :=
  { method := "post"
    url := getUrl g.rootPath apiPath
    data := data
    config := addGlobalConfig g config }

/-- `API.patch` (src/unnamed/part_000 lines 179-190) up to the transport:
it also calls `axiosInstance.post(getUrl(apiPath), data,
addGlobalConfig(config))`. -/
def patch (g : ApiConfig) (apiPath : String) (data : Option JsVal)
    (config : Option CallConfig) : PlainCall :=
  { method := "post"
    url := getUrl g.rootPath apiPath
    data := data
    config := addGlobalConfig g config }

/-- Both plain wrappers then feed the transport's envelope through
`responseHandler`; this is the full observable behavior of `API.post`. -/
def postOutcome (g : ApiConfig) (apiPath : String) (data : Option JsVal)
    (config : Option CallConfig) (transport : PlainCall → ApiResponse) :
    List (Int × Option String) × Except ApiError JsVal :=
  responseHandler (transport (post g apiPath data config))

/-- The full observable behavior of `API.patch`. -/
def patchOutcome (g : ApiConfig) (apiPath : String) (data : Option JsVal)
    (config : Option CallConfig) (transport : PlainCall → ApiResponse) :
    List (Int × Option String) × Except ApiError JsVal :=
  responseHandler (transport (patch g apiPath data config))

/-! ## Schema validation (validated design)

Modelled from the spec: the schema-validation library is an external
collaborator providing parse-and-report semantics (`safeParse` returning
either the data or an ordered issue list with paths and messages).  The
schema language below is a declarative description of JSON shapes. -/

/-- A declarative description of the shape of a JSON value. -/
inductive Schema where
  | sNull
  | sBool
  | sNum
  | sStr
  | sArr (elem : Schema)
  | sObj (fields : List (String × Schema))

mutual

/-- Conformance of a datum to a schema: scalars by tag, arrays element-wise,
objects field-by-field with matching keys in declaration order. -/
def conforms : Schema → JsVal → Bool
  | .sNull, v => match v with | .null => true | _ => false
  | .sBool, v => match v with | .bool _ => true | _ => false
  | .sNum, v => match v with | .num _ => true | _ => false
  | .sStr, v => match v with | .str _ => true | _ => false
  | .sArr s, v => match v with | .arr xs => conformsList s xs | _ => false
  | .sObj fields, v => match v with | .obj fs => conformsFields fields fs | _ => false

/-- Every element of the list conforms to the element schema. -/
def conformsList : Schema → List JsVal → Bool
  | _, [] => true
  | s, x :: xs => conforms s x && conformsList s xs

/-- The object's fields match the declared fields pairwise. -/
def conformsFields : List (String × Schema) → List (String × JsVal) → Bool
  | [], [] => true
  | [], _ :: _ => false
  | _ :: _, [] => false
  | (k, s) :: rest, (k', x) :: rest' =>
    (k == k') && conforms s x && conformsFields rest rest'

end

mutual

/-- The ordered issue list `safeParse` reports for a datum against a
schema; empty exactly when the datum conforms. -/
def issuesOf : Schema → List String → JsVal → List Issue
  | .sNull, path, v => match v with | .null => [] | _ => [⟨path, "Expected null"⟩]
  | .sBool, path, v => match v with | .bool _ => [] | _ => [⟨path, "Expected boolean"⟩]
  | .sNum, path, v => match v with | .num _ => [] | _ => [⟨path, "Expected number"⟩]
  | .sStr, path, v => match v with | .str _ => [] | _ => [⟨path, "Expected string"⟩]
  | .sArr s, path, v =>
    match v with
    | .arr xs => issuesOfList s path 0 xs
    | _ => [⟨path, "Expected array"⟩]
  | .sObj fields, path, v =>
    match v with
    | .obj fs => issuesOfFields fields path fs
    | _ => [⟨path, "Expected object"⟩]

/-- Issues for array elements, indexed paths. -/
def issuesOfList : Schema → List String → Nat → List JsVal → List Issue
  | _, _, _, [] => []
  | s, path, i, x :: xs =>
    issuesOf s (path ++ [toString i]) x ++ issuesOfList s path (i + 1) xs

/-- Issues for object fields against the declared field schemas. -/
def issuesOfFields : List (String × Schema) → List String → List (String × JsVal) → List Issue
  | [], _, [] => []
  | [], path, _ :: _ => [⟨path, "Unrecognized key"⟩]
  | (k, _) :: _, path, [] => [⟨path ++ [k], "Required"⟩]
  | (k, s) :: rest, path, (k', x) :: rest' =>
    (if k == k' then [] else [⟨path ++ [k], "Required"⟩]) ++
      issuesOf s (path ++ [k]) x ++ issuesOfFields rest path rest'

end

mutual

theorem issuesOf_nil_iff (S : Schema) (path : List String) (v : JsVal) :
    issuesOf S path v = [] ↔ conforms S v = true := by
  cases S with
  | sNull => cases v <;> simp [issuesOf, conforms]
  | sBool => cases v <;> simp [issuesOf, conforms]
  | sNum => cases v <;> simp [issuesOf, conforms]
  | sStr => cases v <;> simp [issuesOf, conforms]
  | sArr s =>
    cases v with
    | arr xs => simpa [issuesOf, conforms] using issuesOfList_nil_iff s path 0 xs
    | null => simp [issuesOf, conforms]
    | bool b => simp [issuesOf, conforms]
    | num n => simp [issuesOf, conforms]
    | str t => simp [issuesOf, conforms]
    | obj fs => simp [issuesOf, conforms]
  | sObj fields =>
    cases v with
    | obj fs => simpa [issuesOf, conforms] using issuesOfFields_nil_iff fields path fs
    | null => simp [issuesOf, conforms]
    | bool b => simp [issuesOf, conforms]
    | num n => simp [issuesOf, conforms]
    | str t => simp [issuesOf, conforms]
    | arr xs => simp [issuesOf, conforms]

theorem issuesOfList_nil_iff (s : Schema) (path : List String) (i : Nat) (xs : List JsVal) :
    issuesOfList s path i xs = [] ↔ conformsList s xs = true := by
  cases xs with
  | nil => simp [issuesOfList, conformsList]
  | cons x rest =>
    simp only [issuesOfList, conformsList, List.append_eq_nil, Bool.and_eq_true]
    exact and_congr (issuesOf_nil_iff s (path ++ [toString i]) x)
      (issuesOfList_nil_iff s path (i + 1) rest)

theorem issuesOfFields_nil_iff (fields : List (String × Schema)) (path : List String)
    (fs : List (String × JsVal)) :
    issuesOfFields fields path fs = [] ↔ conformsFields fields fs = true := by
  cases fields with
  | nil => cases fs <;> simp [issuesOfFields, conformsFields]
  | cons p rest =>
    obtain ⟨k, s⟩ := p
    cases fs with
    | nil => simp [issuesOfFields, conformsFields]
    | cons q rest' =>
      obtain ⟨k', x⟩ := q
      by_cases hk : k = k'
      · subst hk
        simp only [issuesOfFields, conformsFields, beq_self_eq_true, if_true,
          List.nil_append, List.append_eq_nil, Bool.true_and, Bool.and_eq_true]
        exact and_congr (issuesOf_nil_iff s (path ++ [k]) x)
          (issuesOfFields_nil_iff rest path rest')
      · simp [issuesOfFields, conformsFields, hk]

end

/-- zod's `safeParse` (external collaborator), modelled from the spec:
returns the data when it conforms, otherwise reports the ordered issue
list. -/
def safeParse (S : Schema) (d : JsVal) : Except (List Issue) JsVal :=
  match issuesOf S [] d with
  | [] => .ok d
  | i :: rest => .error (i :: rest)

/-- `createSchemaValidator` (src/unnamed/part_000 lines 227-236): on
`safeParse` success return `result.data`, else
`throw new ZodError(result.error.issues)`. -/
def createSchemaValidator (S : Schema) (d : JsVal) : Except ApiError JsVal :=
  match safeParse S d with
  | .ok r => .ok r
  | .error e => .error (.validation e)

/-! ## Validated-design request functions -/

/-- The observable request handed to the shared transport instance by the
validated design: the `method` written into `extendedConfig` and the
(validated) body, when any. -/
structure Req where
  method : String
  data : Option JsVal

/-- `getRequest` (src/unnamed/part_000 lines 265-288): issues a `get`
request and validates `response.data` against the response schema.  The
first component lists the requests handed to the transport. -/
def getRequest (respSchema : Schema) (transport : Req → JsVal) :
    List Req × Except ApiError JsVal :=
  let req : Req := ⟨"get", none⟩
  match createSchemaValidator respSchema (transport req) with
  | .ok r => ([req], .ok r)
  | .error e => ([req], .error e)

/-- `postRequest` (src/unnamed/part_000 lines 291-326): validates the
request payload first (a failure throws before any transport call), issues
a `post` request with the validated data, then validates `response.data`. -/
def postRequest (reqSchema respSchema : Schema) (data : JsVal)
    (transport : Req → JsVal) : List Req × Except ApiError JsVal :=
  match createSchemaValidator reqSchema data with
  | .error e => ([], .error e)
  | .ok validatedData =>
    let req : Req := ⟨"post", some validatedData⟩
    match createSchemaValidator respSchema (transport req) with
    | .ok r => ([req], .ok r)
    | .error e => ([req], .error e)

/-- `putRequest` (src/unnamed/part_000 lines 329-364): as `postRequest`
with method `put`. -/
def putRequest (reqSchema respSchema : Schema) (data : JsVal)
    (transport : Req → JsVal) : List Req × Except ApiError JsVal :=
  match createSchemaValidator reqSchema data with
  | .error e => ([], .error e)
  | .ok validatedData =>
    let req : Req := ⟨"put", some validatedData⟩
    match createSchemaValidator respSchema (transport req) with
    | .ok r => ([req], .ok r)
    | .error e => ([req], .error e)

/-- `patchRequest` (src/unnamed/part_000 lines 366-401): as `postRequest`
with method `patch`. -/
def patchRequest (reqSchema respSchema : Schema) (data : JsVal)
    (transport : Req → JsVal) : List Req × Except ApiError JsVal :=
  match createSchemaValidator reqSchema data with
  | .error e => ([], .error e)
  | .ok validatedData =>
    let req : Req := ⟨"patch", some validatedData⟩
    match createSchemaValidator respSchema (transport req) with
    | .ok r => ([req], .ok r)
    | .error e => ([req], .error e)

/-- `deleteRequest` (src/unnamed/part_000 lines 403-426): as `getRequest`
with method `delete`. -/
def deleteRequest (respSchema : Schema) (transport : Req → JsVal) :
    List Req × Except ApiError JsVal :=
  let req : Req := ⟨"delete", none⟩
  match createSchemaValidator respSchema (transport req) with
  | .ok r => ([req], .ok r)
  | .error e => ([req], .error e)

/-! ## Helper lemmas -/

/-- `pre` is an initial segment of `s`, on the character lists. -/
def strStarts (pre s : String) : Bool :=
  pre.data.isPrefixOf s.data

theorem isPrefixOf_append_cancel (a b c : List Char) :
    (a ++ b).isPrefixOf (a ++ c) = b.isPrefixOf c := by
  induction a with
  | nil => rfl
  | cons x xs ih => simp [List.isPrefixOf, ih]

theorem slash_isPrefixOf_iff (cs : List Char) :
    ['/'].isPrefixOf cs = true ↔ cs.head? = some '/' := by
  cases cs with
  | nil => simp [List.isPrefixOf]
  | cons c t =>
    simp only [List.isPrefixOf, List.head?]
    constructor
    · intro h
      have : '/' = c := by
        rcases Bool.and_eq_true .. ▸ h with ⟨h1, -⟩
        exact eq_of_beq h1
      rw [this]
    · intro h
      injection h with h
      subst h
      simp [List.isPrefixOf]

theorem validator_ok_of_conforms (S : Schema) (d : JsVal) (h : conforms S d = true) :
    createSchemaValidator S d = .ok d := by
  have hi : issuesOf S [] d = [] := (issuesOf_nil_iff S [] d).2 h
  simp [createSchemaValidator, safeParse, hi]

theorem validator_issues_of_not_conforms (S : Schema) (d : JsVal)
    (h : conforms S d = false) :
    ∃ i rest, issuesOf S [] d = i :: rest ∧
      createSchemaValidator S d = .error (.validation (i :: rest)) := by
  cases hi : issuesOf S [] d with
  | nil =>
    have := (issuesOf_nil_iff S [] d).1 hi
    rw [h] at this
    exact absurd this (by simp)
  | cons i rest =>
    exact ⟨i, rest, rfl, by simp [createSchemaValidator, safeParse, hi]⟩

/-! ## Claims -/

/-- C1: `responseHandler` logs and fails with a protocol error `\x7bcode,
message\x7d` on `code === 500`; fails without logging on any other present
`code ≠ 200`; otherwise returns `data` when present (non-null), else the
boolean `true`. -/
theorem claim_C1_responseHandler (res : ApiResponse) :
    (res.code = some 500 →
      responseHandler res =
        ([(500, res.message)], .error (.protocol (some 500) res.message))) ∧
    (∀ c : Int, res.code = some c → c ≠ 200 → c ≠ 500 →
      responseHandler res = ([], .error (.protocol (some c) res.message))) ∧
    ((res.code = none ∨ res.code = some 200) → (res.data = none ∨ res.data = some .null) →
      responseHandler res = ([], .ok (.bool true))) ∧
    (∀ v : JsVal, (res.code = none ∨ res.code = some 200) → res.data = some v →
      v ≠ .null → responseHandler res = ([], .ok v)) := by
  refine ⟨?_, ?_, ?_, ?_⟩
  · intro h
    simp [responseHandler, h]
  · intro c hc h200 h500
    simp [responseHandler, hc, h200, h500]
  · intro hcode hdata
    rcases hcode with h | h <;> rcases hdata with hd | hd <;>
      simp [responseHandler, h, hd, dataOrTrue]
  · intro v hcode hd hv
    have hdt : dataOrTrue res.data = v := by
      rw [hd]
      cases v <;> first | rfl | exact absurd rfl hv
    rcases hcode with h | h <;> simp [responseHandler, h, hdt]

/-- C1 witness: the four spec examples evaluated concretely. -/
theorem claim_C1_witness :
    responseHandler ⟨some 500, none, some "boom", none⟩ =
      ([(500, some "boom")], .error (.protocol (some 500) (some "boom"))) ∧
    responseHandler ⟨some 404, none, some "nf", none⟩ =
      ([], .error (.protocol (some 404) (some "nf"))) ∧
    responseHandler ⟨some 200, some (.obj [("x", .num 1)]), none, none⟩ =
      ([], .ok (.obj [("x", .num 1)])) ∧
    responseHandler ⟨some 200, none, none, none⟩ = ([], .ok (.bool true)) :=
  ⟨(claim_C1_responseHandler _).1 rfl,
   (claim_C1_responseHandler _).2.1 404 rfl (by decide) (by decide),
   (claim_C1_responseHandler _).2.2.2 (.obj [("x", .num 1)]) (Or.inr rfl) rfl
     (fun h => JsVal.noConfusion h),
   (claim_C1_responseHandler _).2.2.1 (Or.inr rfl) (Or.inl rfl)⟩

/-- C2: the resolved `X-ENCRYPTED` header is `"yes"` exactly when the
process-wide request-transform list is present and non-empty, otherwise
`"no"`; a call through `postTransformed` always sends `"yes"`. -/
theorem claim_C2_xEncrypted (g : ApiConfig) (c c' : Option CallConfig)
    (tr : Option TransformReq) (ts : Option TransformRes) :
    ((∃ l, g.transformRequest = some l ∧ 0 < l.length) →
      getHeader (addGlobalConfig g c).headers "X-ENCRYPTED" = some "yes") ∧
    (¬(∃ l, g.transformRequest = some l ∧ 0 < l.length) →
      getHeader (addGlobalConfig g c).headers "X-ENCRYPTED" = some "no") ∧
    getHeader (postTransformedConfig c' tr ts).headers "X-ENCRYPTED" = some "yes" := by
  refine ⟨?_, ?_, getHeader_setHeader_self _ _ _⟩
  · rintro ⟨l, hl, hlen⟩
    have : (match g.transformRequest with
            | some l => if l.length > 0 then "yes" else "no"
            | none => "no") = "yes" := by
      rw [hl]
      simp [hlen]
    simp only [addGlobalConfig]
    rw [this]
    exact getHeader_setHeader_self _ _ _
  · intro hno
    have : (match g.transformRequest with
            | some l => if l.length > 0 then "yes" else "no"
            | none => "no") = "no" := by
      cases hl : g.transformRequest with
      | none => rfl
      | some l =>
        have : ¬0 < l.length := fun hlen => hno ⟨l, hl, hlen⟩
        simp [this]
    simp only [addGlobalConfig]
    rw [this]
    exact getHeader_setHeader_self _ _ _

/-- C2 witness: a non-empty global transform list yields `"yes"`, an absent
one yields `"no"`, and `postTransformed` yields `"yes"` even with no global
transforms. -/
theorem claim_C2_witness :
    getHeader (addGlobalConfig ⟨"", none, some [plainRequestTransformer], none⟩
      none).headers "X-ENCRYPTED" = some "yes" ∧
    getHeader (addGlobalConfig ⟨"", none, none, none⟩ none).headers
      "X-ENCRYPTED" = some "no" ∧
    getHeader (postTransformedConfig none none none).headers
      "X-ENCRYPTED" = some "yes" :=
  ⟨(claim_C2_xEncrypted ⟨"", none, some [plainRequestTransformer], none⟩ none none
      none none).1 ⟨[plainRequestTransformer], rfl, by decide⟩,
   (claim_C2_xEncrypted ⟨"", none, none, none⟩ none none none none).2.1
     (by rintro ⟨l, hl, -⟩; exact Option.noConfusion hl),
   (claim_C2_xEncrypted ⟨"", none, none, none⟩ none none none none).2.2⟩

/-- C9: both `addGlobalConfig` and the configuration built by
`postTransformed` force `withCredentials` to `true`, whatever the per-call
configuration (including one carrying `withCredentials: false`). -/
theorem claim_C9_withCredentials (g : ApiConfig) (c c' : Option CallConfig)
    (tr : Option TransformReq) (ts : Option TransformRes) :
    (addGlobalConfig g c).withCredentials = true ∧
    (postTransformedConfig c' tr ts).withCredentials = true :=
  ⟨rfl, rfl⟩

/-- C3: a conforming datum validates to itself unchanged; a non-conforming
datum fails with a validation error carrying at least one issue; the
validator never produces a protocol error. -/
theorem claim_C3_validate (S : Schema) (d : JsVal) :
    (conforms S d = true → createSchemaValidator S d = .ok d) ∧
    (conforms S d = false →
      ∃ issues, createSchemaValidator S d = .error (.validation issues) ∧
        0 < issues.length) ∧
    (∀ c m, createSchemaValidator S d ≠ .error (.protocol c m)) := by
  refine ⟨validator_ok_of_conforms S d, ?_, ?_⟩
  · intro h
    obtain ⟨i, rest, -, hv⟩ := validator_issues_of_not_conforms S d h
    exact ⟨i :: rest, hv, by simp⟩
  · intro c m
    unfold createSchemaValidator
    cases safeParse S d <;> simp

/-- C3 witness: a conforming and a non-conforming envelope body against the
schema `\x7bcode: number\x7d`. -/
theorem claim_C3_witness :
    conforms (.sObj [("code", .sNum)]) (.obj [("code", .num 200)]) = true ∧
    createSchemaValidator (.sObj [("code", .sNum)]) (.obj [("code", .num 200)]) =
      .ok (.obj [("code", .num 200)]) ∧
    conforms (.sObj [("code", .sNum)]) (.obj [("code", .str "x")]) = false ∧
    ∃ issues,
      createSchemaValidator (.sObj [("code", .sNum)]) (.obj [("code", .str "x")]) =
        .error (.validation issues) ∧ 0 < issues.length := by
  have h1 : conforms (.sObj [("code", .sNum)]) (.obj [("code", .num 200)]) = true := by
    decide
  have h2 : conforms (.sObj [("code", .sNum)]) (.obj [("code", .str "x")]) = false := by
    decide
  exact ⟨h1, (claim_C3_validate _ _).1 h1, h2, (claim_C3_validate _ _).2.1 h2⟩

/-- C6: in the validated design, a request payload that fails the request
schema makes `postRequest`/`putRequest`/`patchRequest` fail with a
validation error, and no request is handed to the transport. -/
theorem claim_C6_requestValidation (reqS respS : Schema) (d : JsVal)
    (t : Req → JsVal) (h : conforms reqS d = false) :
    ∃ issues, issues ≠ [] ∧
      postRequest reqS respS d t = ([], .error (.validation issues)) ∧
      putRequest reqS respS d t = ([], .error (.validation issues)) ∧
      patchRequest reqS respS d t = ([], .error (.validation issues)) := by
  obtain ⟨i, rest, -, hv⟩ := validator_issues_of_not_conforms reqS d h
  exact ⟨i :: rest, by simp,
    by simp [postRequest, hv], by simp [putRequest, hv], by simp [patchRequest, hv]⟩

/-- C6 witness: a string payload against a numeric request schema is
rejected with no transport call, on all three write methods. -/
theorem claim_C6_witness :
    conforms .sNum (.str "x") = false ∧
    ∃ issues, issues ≠ [] ∧
      postRequest .sNum .sNum (.str "x") (fun _ => .null) =
        ([], .error (.validation issues)) ∧
      putRequest .sNum .sNum (.str "x") (fun _ => .null) =
        ([], .error (.validation issues)) ∧
      patchRequest .sNum .sNum (.str "x") (fun _ => .null) =
        ([], .error (.validation issues)) :=
  ⟨by decide, claim_C6_requestValidation .sNum .sNum (.str "x") (fun _ => .null)
    (by decide)⟩

/-- C7: in the plain design `API.patch` issues exactly the request
`API.post` issues (HTTP method `post`) and is observably equivalent to it;
in the validated design `patchRequest` hands the transport a request with
method `patch`. -/
theorem claim_C7_patchViaPost (g : ApiConfig) (p : String) (d : Option JsVal)
    (c : Option CallConfig) (t : PlainCall → ApiResponse) :
    patch g p d c = post g p d c ∧
    (patch g p d c).method = "post" ∧
    patchOutcome g p d c t = postOutcome g p d c t ∧
    (∀ (reqS respS : Schema) (x : JsVal) (tr : Req → JsVal),
      conforms reqS x = true →
      (patchRequest reqS respS x tr).1 = [⟨"patch", some x⟩]) := by
  refine ⟨rfl, rfl, rfl, ?_⟩
  intro reqS respS x tr hx
  have hv := validator_ok_of_conforms reqS x hx
  simp only [patchRequest, hv]
  cases createSchemaValidator respS (tr ⟨"patch", some x⟩) <;> rfl

/-- C7 witness: the plain-design equivalence and the validated-design
`patch` method at concrete inputs. -/
theorem claim_C7_witness :
    patch ⟨"https://svc", none, none, none⟩ "a" none none =
      post ⟨"https://svc", none, none, none⟩ "a" none none ∧
    (patch ⟨"https://svc", none, none, none⟩ "a" none none).method = "post" ∧
    patchOutcome ⟨"https://svc", none, none, none⟩ "a" none none
        (fun _ => ⟨some 200, none, none, none⟩) =
      postOutcome ⟨"https://svc", none, none, none⟩ "a" none none
        (fun _ => ⟨some 200, none, none, none⟩) ∧
    (patchRequest .sNum .sNum (.num 1) (fun _ => .null)).1 =
      [⟨"patch", some (.num 1)⟩] := by
  have h := claim_C7_patchViaPost ⟨"https://svc", none, none, none⟩ "a" none none
    (fun _ => ⟨some 200, none, none, none⟩)
  exact ⟨h.1, h.2.1, h.2.2.1, h.2.2.2 .sNum .sNum (.num 1) (fun _ => .null) (by decide)⟩

/-- C10: the validated design never inspects the response envelope code:
whenever the transport's response body conforms to the bound response
schema, every wrapper returns the validated body as a success — even a body
carrying `code: 500`. -/
theorem claim_C10_envelopeNotInspected (respS : Schema) (r : JsVal)
    (t : Req → JsVal) (ht : ∀ q, t q = r) (h : conforms respS r = true) :
    (getRequest respS t).2 = .ok r ∧
    (deleteRequest respS t).2 = .ok r ∧
    (∀ (reqS : Schema) (d : JsVal), conforms reqS d = true →
      (postRequest reqS respS d t).2 = .ok r ∧
      (putRequest reqS respS d t).2 = .ok r ∧
      (patchRequest reqS respS d t).2 = .ok r) := by
  have hv := validator_ok_of_conforms respS r h
  refine ⟨by simp [getRequest, ht, hv], by simp [deleteRequest, ht, hv], ?_⟩
  intro reqS d hd
  have hvd := validator_ok_of_conforms reqS d hd
  exact ⟨by simp [postRequest, hvd, ht, hv], by simp [putRequest, hvd, ht, hv],
    by simp [patchRequest, hvd, ht, hv]⟩

/-- C10 witness: a server body `\x7bcode: 500, message: "boom"\x7d`
conforming to the bound response schema is returned as a success by every
validated wrapper. -/
theorem claim_C10_witness :
    (getRequest (.sObj [("code", .sNum), ("message", .sStr)])
      (fun _ => .obj [("code", .num 500), ("message", .str "boom")])).2 =
      .ok (.obj [("code", .num 500), ("message", .str "boom")]) ∧
    (deleteRequest (.sObj [("code", .sNum), ("message", .sStr)])
      (fun _ => .obj [("code", .num 500), ("message", .str "boom")])).2 =
      .ok (.obj [("code", .num 500), ("message", .str "boom")]) ∧
    (postRequest .sNum (.sObj [("code", .sNum), ("message", .sStr)]) (.num 1)
      (fun _ => .obj [("code", .num 500), ("message", .str "boom")])).2 =
      .ok (.obj [("code", .num 500), ("message", .str "boom")]) := by
  have h := claim_C10_envelopeNotInspected
    (.sObj [("code", .sNum), ("message", .sStr)])
    (.obj [("code", .num 500), ("message", .str "boom")])
    (fun _ => .obj [("code", .num 500), ("message", .str "boom")])
    (fun _ => rfl) (by decide)
  exact ⟨h.1, h.2.1, (h.2.2 .sNum (.num 1) (by decide)).1⟩

/-- C4 counterexample: a path that arrives with two leading slashes is not
normalized — `getUrl` leaves both slashes, so root and path are separated
by two `/`, not exactly one. -/
theorem claim_C4_counterexample :
    getUrl "https://api.x" "//a" = "https://api.x//a" ∧
    strStarts ("https://api.x" ++ "//") (getUrl "https://api.x" "//a") = true ∧
    getUrl "https://api.x" "//a" ≠ "https://api.x/a" := by
  refine ⟨rfl, by decide, ?_⟩
  intro hcontra
  exact absurd (congrArg String.data hcontra) (by decide)

/-- C4 (amended): for every root and every path with at most one leading
slash, `getUrl` separates root and path by exactly one `/` (the result
extends `root ++ "/"` but not `root ++ "//"`), and a path given with or
without its single leading slash resolves to the same URL. -/
theorem claim_C4_getUrl (root p : String) (h : strStarts "//" p = false) :
    strStarts (root ++ "/") (getUrl root p) = true ∧
    strStarts (root ++ "//") (getUrl root p) = false ∧
    (strStarts "/" p = false → getUrl root ("/" ++ p) = getUrl root p) := by
  have hdata2 : ("/" ++ p).data = '/' :: p.data := by
    rw [String.data_append]
    rfl
  by_cases hp : p.data.head? = some '/'
  · have hget : getUrl root p = root ++ p := by
      simp [getUrl, hp]
    have hpre : strStarts "/" p = true := by
      show ['/'].isPrefixOf p.data = true
      exact (slash_isPrefixOf_iff p.data).2 hp
    refine ⟨?_, ?_, ?_⟩
    · rw [hget]
      show (strStarts (root ++ "/") (root ++ p)) = true
      unfold strStarts
      rw [String.data_append, String.data_append]
      show (root.data ++ ['/']).isPrefixOf (root.data ++ p.data) = true
      rw [isPrefixOf_append_cancel]
      exact (slash_isPrefixOf_iff p.data).2 hp
    · rw [hget]
      unfold strStarts
      rw [String.data_append, String.data_append]
      show (root.data ++ ['/', '/']).isPrefixOf (root.data ++ p.data) = false
      rw [isPrefixOf_append_cancel]
      exact h
    · intro hs
      rw [hpre] at hs
      cases hs
  · have hget : getUrl root p = root ++ ("/" ++ p) := by
      simp [getUrl, hp]
    have hnp : ['/'].isPrefixOf p.data = false := by
      cases hpp : ['/'].isPrefixOf p.data
      · rfl
      · exact absurd ((slash_isPrefixOf_iff p.data).1 hpp) hp
    refine ⟨?_, ?_, ?_⟩
    · rw [hget]
      unfold strStarts
      rw [String.data_append, String.data_append, hdata2]
      show (root.data ++ ['/']).isPrefixOf (root.data ++ '/' :: p.data) = true
      rw [isPrefixOf_append_cancel root.data ['/'] ('/' :: p.data)]
      simp [List.isPrefixOf]
    · rw [hget]
      unfold strStarts
      rw [String.data_append, String.data_append, hdata2]
      show (root.data ++ ['/', '/']).isPrefixOf (root.data ++ '/' :: p.data) = false
      rw [isPrefixOf_append_cancel root.data ['/', '/'] ('/' :: p.data)]
      simp [List.isPrefixOf, hnp]
    · intro _
      have hslash : getUrl root ("/" ++ p) = root ++ ("/" ++ p) := by
        simp [getUrl, hdata2]
      rw [hslash, hget]

/-- C4 witness: the amended statement at root `"https://api.x"` and path
`"a"`. -/
theorem claim_C4_witness :
    strStarts ("https://api.x" ++ "/") (getUrl "https://api.x" "a") = true ∧
    strStarts ("https://api.x" ++ "//") (getUrl "https://api.x" "a") = false ∧
    (strStarts "/" "a" = false →
      getUrl "https://api.x" ("/" ++ "a") = getUrl "https://api.x" "a") :=
  claim_C4_getUrl "https://api.x" "a" (by decide)

/-- C5 counterexample: a process-wide `additionalHeader` entry never
reaches the resolved headers — `addGlobalConfig` does not read
`additionalHeader`. -/
theorem claim_C5_counterexample :
    getHeader (addGlobalConfig ⟨"", some [("A", "1")], none, none⟩ none).headers
      "A" = none := rfl

/-- C5 (amended): the resolved configuration ignores the process-wide
`additionalHeader` mapping entirely; the resolved headers are exactly the
caller-supplied headers plus the computed `X-ENCRYPTED` marker. -/
theorem claim_C5_headers (g : ApiConfig) (ah : Option HeaderMap)
    (c : Option CallConfig) (k : String) (hk : k ≠ "X-ENCRYPTED") :
    addGlobalConfig { g with additionalHeader := ah } c = addGlobalConfig g c ∧
    getHeader (addGlobalConfig g c).headers k =
      getHeader (match c with | some cc => cc.headers | none => []) k :=
  ⟨rfl, getHeader_setHeader_ne _ "X-ENCRYPTED" _ k hk⟩

/-- C5 witness: the amended statement at a concrete global configuration
with a non-empty `additionalHeader`. -/
theorem claim_C5_witness :
    addGlobalConfig ⟨"", some [("A", "1")], none, none⟩ none =
      addGlobalConfig ⟨"", none, none, none⟩ none ∧
    getHeader (addGlobalConfig ⟨"", none, none, none⟩ none).headers "A" =
      getHeader ([] : HeaderMap) "A" :=
  claim_C5_headers ⟨"", none, none, none⟩ (some [("A", "1")]) none "A" (by decide)

/-- C8 counterexample: decoding is not idempotent on every wire payload:
the raw text `"1"` (a JSON-encoded string) decodes to the string `1`, and
decoding again re-parses it into the number `1`. -/
theorem claim_C8_counterexample :
    (plainResponseTransformer (.str "\"1\"")).bind plainResponseTransformer ≠
      plainResponseTransformer (.str "\"1\"") := by
  intro hcontra
  have h1 : (plainResponseTransformer (.str "\"1\"")).bind plainResponseTransformer =
      Except.ok (JsVal.num 1) := rfl
  have h2 : plainResponseTransformer (.str "\"1\"") = Except.ok (JsVal.str "1") := rfl
  rw [h1, h2] at hcontra
  injection hcontra with hv
  exact JsVal.noConfusion hv

/-- C8 (amended): decoding passes already-structured (non-string) data
through unchanged, and is idempotent on every payload whose decode result
is not again a raw string. -/
theorem claim_C8_decodeIdempotent (x v : JsVal)
    (hx : plainResponseTransformer x = .ok v) (hv : ∀ s, v ≠ .str s) :
    (plainResponseTransformer x).bind plainResponseTransformer =
      plainResponseTransformer x ∧
    (∀ w : JsVal, (∀ s, w ≠ .str s) → plainResponseTransformer w = .ok w) := by
  have hpass : ∀ w : JsVal, (∀ s, w ≠ .str s) → plainResponseTransformer w = .ok w := by
    intro w hw
    cases w with
    | str s => exact absurd rfl (hw s)
    | null => rfl
    | bool b => rfl
    | num n => rfl
    | arr xs => rfl
    | obj fs => rfl
  refine ⟨?_, hpass⟩
  rw [hx]
  show plainResponseTransformer v = Except.ok v
  exact hpass v hv

/-- C8 witness: the amended statement at an already-structured payload. -/
theorem claim_C8_witness :
    (plainResponseTransformer (.obj [("x", .num 1)])).bind plainResponseTransformer =
      plainResponseTransformer (.obj [("x", .num 1)]) ∧
    (∀ w : JsVal, (∀ s, w ≠ .str s) → plainResponseTransformer w = .ok w) :=
  claim_C8_decodeIdempotent (.obj [("x", .num 1)]) (.obj [("x", .num 1)]) rfl
    (fun _ h => JsVal.noConfusion h)

end Idolly
